import Mathlib

/-!
Verification development for the video composition pipeline in
`app/services/video.py` (MoneyPrinterTurbo).

Conventions of the shallow embedding:
* Python `str` values are modelled as `List Char`; the helpers `pyStrip`,
  `pyLower`, `pySplit`, `pyContains`, `pyLjust` model `str.strip`,
  `str.lower`, `str.split(sep)`, the `in` substring test and `str.ljust`.
* Python `int(s)` on a (non-negative) digit string is modelled by
  `parseNat`; the `none` result models the `ValueError` raised on a
  non-digit string.  `str(n)` for a natural number is `natToChars` and the
  `%02d` format is `padZero2`.
* Durations and timestamps (Python floats) are modelled as rationals.
* External effects (running ffmpeg, `clip.write_videofile`, the
  filesystem) are modelled by explicit oracles or an explicit file-set
  state, as noted on each definition.
-/

/-! ## Python string primitives -/

/-- Model of Python `str.strip()`: drop whitespace from both ends. -/
def pyStrip (l : List Char) : List Char :=
  ((l.dropWhile Char.isWhitespace).reverse.dropWhile Char.isWhitespace).reverse

/-- Model of Python `str.lower()`. -/
def pyLower (l : List Char) : List Char :=
  l.map Char.toLower

/-- Model of Python `str.split(sep)` for a one-character separator:
`pySplit sep l` splits `l` at every occurrence of `sep`; the empty string
splits to `[[]]`. -/
def pySplit (sep : Char) : List Char → List (List Char)
  | [] => [[]]
  | c :: rest =>
    let r := pySplit sep rest
    if c = sep then [] :: r
    else
      match r with
      | h :: t => (c :: h) :: t
      | [] => [[c]]

/-- Helper for `pyContains`: does `hay` start with `needle`? -/
def pyStartsWith : List Char → List Char → Bool
  | [], _ => true
  | _ :: _, [] => false
  | a :: as, b :: bs => a == b && pyStartsWith as bs

/-- Model of Python `needle in hay` (substring containment). -/
def pyContains (needle : List Char) : List Char → Bool
  | [] => needle.isEmpty
  | h :: t => pyStartsWith needle (h :: t) || pyContains needle t

/-- Model of Python `str.ljust(width, fill)`. -/
def pyLjust (width : ℕ) (fill : Char) (l : List Char) : List Char :=
  l ++ List.replicate (width - l.length) fill

/-- Numeric value of a decimal digit character, `none` on non-digits. -/
def charDigitVal (c : Char) : Option ℕ :=
  if c.isDigit then some (c.toNat - 48) else none

/-- Accumulator loop of `parseNat`. -/
def parseNatGo : ℕ → List Char → Option ℕ
  | acc, [] => some acc
  | acc, c :: t =>
    match charDigitVal c with
    | some d => parseNatGo (acc * 10 + d) t
    | none => none

/-- Model of Python `int(s)` restricted to the non-negative digit strings
that occur in this code base; `none` models the `ValueError` raised on the
empty string or on any non-digit character. -/
def parseNat (l : List Char) : Option ℕ :=
  if l.isEmpty then none else parseNatGo 0 l

/-- Decimal digit character of `n % 10`. -/
def digitChar (n : ℕ) : Char :=
  Char.ofNat (48 + n % 10)

/-- Fuel-indexed loop of `natToChars` (the fuel dominates the number of
decimal digits, so `natToChars` below never exhausts it). -/
def natToCharsGo : ℕ → ℕ → List Char
  | 0, _ => []
  | fuel + 1, n =>
    if n < 10 then [digitChar n] else natToCharsGo fuel (n / 10) ++ [digitChar n]

/-- Model of Python `str(n)` for a natural number `n`. -/
def natToChars (n : ℕ) : List Char :=
  natToCharsGo (n + 1) n

/-- Model of the Python format `f"{n:02d}"`: pad `str(n)` on the left with
zeros to width 2. -/
def padZero2 (n : ℕ) : List Char :=
  List.replicate (2 - (natToChars n).length) '0' ++ natToChars n

/-! ## Data model: `SubClippedVideoClip` (video.py lines 39-52) -/

/-- Embedding of the class `SubClippedVideoClip`.  `start_time` and
`end_time` are `Option ℚ` because the Python constructor defaults them to
`None` (the Clip Worker's results leave them unset). -/
structure SubClippedVideoClip where
  file_path : List Char
  start_time : Option ℚ
  end_time : Option ℚ
  width : ℕ
  height : ℕ
  duration : ℚ
deriving DecidableEq

/-- Constructor call `SubClippedVideoClip(file_path=p, start_time=s,
end_time=e, width=w, height=h)`: the `duration is None` branch computes
`duration = end_time - start_time`. -/
def mkWindowClip (p : List Char) (s e : ℚ) (w h : ℕ) : SubClippedVideoClip :=
  ⟨p, some s, some e, w, h, e - s⟩

/-- Constructor call `SubClippedVideoClip(file_path=p, duration=d, width=w,
height=h)`: an explicit duration is stored and the times stay `None`. -/
def mkProcessedClip (p : List Char) (d : ℚ) (w h : ℕ) : SubClippedVideoClip :=
  ⟨p, none, none, w, h, d⟩

/-! ## C7: NVIDIA driver gate and GPU detection (video.py lines 67-185) -/

/-- Environment visible to `detect_gpu`: each `Option (List Char)` is the
stdout of an external probe when it ran with return code 0, and `none` when
the command failed, timed out, or returned a non-zero code (all of which
make the Python code fall through identically). -/
structure GpuEnv where
  system : List Char
  nvidiaQuery : Option (List Char)
  driverQuery : Option (List Char)
  wmicQuery : Option (List Char)
  macQuery : Option (List Char)
  linuxVendor : Option (List Char)
deriving DecidableEq

/-- Embedding of `check_nvidia_driver_version`: parse the integer before
the first `.` of the first stdout line and accept only when it is at least
570.  A parse failure or a failed query yields `false`. -/
def check_nvidia_driver_version (query : Option (List Char)) : Bool :=
  match query with
  | none => false
  | some stdout =>
    let s := pyStrip stdout
    if s = [] then false
    else
      let driver_version_str := (pySplit '\n' s).headD []
      match parseNat ((pySplit '.' driver_version_str).headD []) with
      | some major => 570 ≤ major
      | none => false

/-- Windows branch of `detect_gpu` (wmic video-controller scan). -/
def windowsGpuStep (env : GpuEnv) (system : List Char) : Option (List Char) :=
  if system = "windows".toList then
    match env.wmicQuery with
    | some out =>
      let output := pyLower out
      if pyContains "intel".toList output &&
          (pyContains "uhd".toList output || pyContains "iris".toList output ||
            pyContains "xe".toList output) then
        some "intel".toList
      else if pyContains "amd".toList output || pyContains "radeon".toList output then
        some "amd".toList
      else none
    | none => none
  else none

/-- macOS branch of `detect_gpu` (`system_profiler SPDisplaysDataType`). -/
def darwinGpuStep (env : GpuEnv) (system : List Char) : Option (List Char) :=
  if system = "darwin".toList then
    match env.macQuery with
    | some out => if pyContains "Apple".toList out then some "apple".toList else none
    | none => none
  else none

/-- Linux branch of `detect_gpu` (`/sys/class/drm/card0/device/vendor`). -/
def linuxGpuStep (env : GpuEnv) (system : List Char) : Option (List Char) :=
  if system = "linux".toList then
    match env.linuxVendor with
    | some v =>
      let vendor_id := pyStrip v
      if vendor_id = "0x8086".toList then some "intel".toList
      else if vendor_id = "0x1002".toList then some "amd".toList
      else none
    | none => none
  else none

/-- The platform steps of `detect_gpu` that follow the NVIDIA probe, in
their source order (Windows, then macOS, then Linux). -/
def detectGpuRest (env : GpuEnv) (system : List Char) : Option (List Char) :=
  match windowsGpuStep env system with
  | some v => some v
  | none =>
    match darwinGpuStep env system with
    | some v => some v
    | none => linuxGpuStep env system

/-- Embedding of `detect_gpu`.  Note the source returns `None` as soon as
an NVIDIA GPU is seen but the driver gate fails (lines 121-125): the
remaining platform steps are not tried in that case. -/
def detect_gpu (env : GpuEnv) : Option (List Char) :=
  let system := pyLower env.system
  match env.nvidiaQuery with
  | some stdout =>
    if pyStrip stdout = [] then detectGpuRest env system
    else if check_nvidia_driver_version env.driverQuery then some "nvidia".toList
    else none
  | none => detectGpuRest env system

/-- Modelled from the spec: the detection order the specification
describes, where a failed NVIDIA driver check lets detection continue with
the subsequent platform steps instead of concluding immediately. -/
def detectGpuClaimed (env : GpuEnv) : Option (List Char) :=
  let system := pyLower env.system
  match env.nvidiaQuery with
  | some stdout =>
    if pyStrip stdout = [] then detectGpuRest env system
    else if check_nvidia_driver_version env.driverQuery then some "nvidia".toList
    else detectGpuRest env system
  | none => detectGpuRest env system

/-! ## C5: `write_videofile_with_fallback` (video.py lines 320-347) -/

/-- The values of the `GPU_ENCODERS` dict (video.py lines 60-65). -/
def gpuEncoderValues : List (List Char) :=
  ["h264_nvenc".toList, "h264_qsv".toList, "h264_amf".toList, "h264_videotoolbox".toList]

/-- The substring set that triggers the CPU fallback (video.py line 336). -/
def fallbackKeywords : List (List Char) :=
  ["nvenc".toList, "driver".toList, "encoder".toList, "not support".toList,
    "invalid argument".toList]

/-- Does the lower-cased error message contain one of the fallback
keywords? -/
def errorMatchesFallback (msg : List Char) : Bool :=
  fallbackKeywords.any fun k => pyContains k (pyLower msg)

/-- Embedding of `write_videofile_with_fallback`.  The underlying
`clip.write_videofile` is an oracle `write : codec → Option message`
(`none` = success, `some msg` = exception with message `msg`).  The result
is the surfaced exception (if any) together with the trace of codecs
actually attempted, in order. -/
def write_videofile_with_fallback (codec fallback_codec : List Char)
    (write : List Char → Option (List Char)) :
    Option (List Char) × List (List Char) :=
  if codec ≠ fallback_codec ∧ codec ∈ gpuEncoderValues then
    match write codec with
    | none => (none, [codec])
    | some e =>
      if errorMatchesFallback e then (write fallback_codec, [codec, fallback_codec])
      else (some e, [codec])
  else (write codec, [codec])

/-! ## C1: the Clip Worker `process_single_clip` (video.py lines 470-612) -/

/-- Result of one Clip Worker run: the returned `SubClippedVideoClip`
(the recorded attributes of line 603-608) together with the dimensions of
the video actually written to the temp file. -/
structure ClipWorkerResult where
  recorded : SubClippedVideoClip
  encoded_width : ℕ
  encoded_height : ℕ
deriving DecidableEq

/-- Embedding of the geometry/duration bookkeeping of
`process_single_clip`.  Inputs: the decoded size `clip_w × clip_h` and
duration `clip_duration` of the subclipped segment, the target geometry,
the duration cap, whether a GPU scale filter is available and whether the
GPU resize pipeline succeeds (an oracle for the external ffmpeg run).
The aspect-ratio comparison `clip.w / clip.h == video_width / video_height`
is modelled as exact equality of rationals.  The transition effects
(`app/services/utils/video_effects`, not part of this repository's
sources) are modelled from the spec as size-preserving, so the encoded
size is the size reached after step 2.  Note that `clip_w`/`clip_h` are
reassigned only on the successful GPU path (line 534); on the CPU resize
path (lines 548-562) the recorded attributes keep the decoded source
size. -/
def process_single_clip (clip_file : List Char) (clip_w clip_h : ℕ)
    (clip_duration : ℚ) (video_width video_height : ℕ)
    (max_clip_duration : ℚ) (gpu_scale_filter : Bool)
    (gpu_resize_success : Bool) : ClipWorkerResult :=
  let needs_resize : Bool := clip_w ≠ video_width ∨ clip_h ≠ video_height
  let ratio_eq : Bool := (clip_w : ℚ) / clip_h = (video_width : ℚ) / video_height
  let gpu_path : Bool := needs_resize && (gpu_scale_filter && (ratio_eq && gpu_resize_success))
  let rec_w := if gpu_path then video_width else clip_w
  let rec_h := if gpu_path then video_height else clip_h
  let enc_w := if needs_resize then video_width else clip_w
  let enc_h := if needs_resize then video_height else clip_h
  let rec_dur := if clip_duration ≤ max_clip_duration then clip_duration else max_clip_duration
  ⟨mkProcessedClip clip_file rec_dur rec_w rec_h, enc_w, enc_h⟩

/-! ## C4: the subclip planner loop of `combine_videos` (lines 646-654) -/

/-- Embedding of the per-source `while start_time < clip_duration` loop.
The fuel argument makes the recursion structural; `none` means the fuel
ran out before the loop condition became false (the theorems below hold
for every fuel, hence for the actual run of the loop). -/
def planClipLoop (video_path : List Char) (clip_w clip_h : ℕ)
    (max_clip_duration clip_duration : ℚ) (sequential : Bool) :
    ℕ → ℚ → Option (List SubClippedVideoClip)
  | 0, start_time => if start_time < clip_duration then none else some []
  | fuel + 1, start_time =>
    if start_time < clip_duration then
      let end_time := min (start_time + max_clip_duration) clip_duration
      let emitted :=
        if max_clip_duration ≤ clip_duration - start_time then
          [mkWindowClip video_path start_time end_time clip_w clip_h]
        else []
      if sequential then some emitted
      else
        (planClipLoop video_path clip_w clip_h max_clip_duration clip_duration
            sequential fuel end_time).map (emitted ++ ·)
    else some []

/-- The planner windows of one source: the loop entered at
`start_time = 0`. -/
def planClipWindows (video_path : List Char) (clip_w clip_h : ℕ)
    (max_clip_duration clip_duration : ℚ) (sequential : Bool) (fuel : ℕ) :
    Option (List SubClippedVideoClip) :=
  planClipLoop video_path clip_w clip_h max_clip_duration clip_duration sequential fuel 0

/-! ## C2: the pre-dispatch filter of `combine_videos` (lines 681-686) -/

/-- Embedding of the `for i, subclipped_item in enumerate(...)` loop with
its `if video_duration > audio_duration: break` guard.  `video_duration`
is a parameter because the loop never modifies it. -/
def clipsToProcessGo (video_duration audio_duration : ℚ) :
    ℕ → List SubClippedVideoClip → List (ℕ × SubClippedVideoClip)
  | _, [] => []
  | i, item :: rest =>
    if audio_duration < video_duration then []
    else (i, item) :: clipsToProcessGo video_duration audio_duration (i + 1) rest

/-- The dispatch list as `combine_videos` builds it: at this point of the
source `video_duration` still holds its initial value 0 (line 639); it is
first incremented only in the result-collection loop (line 714). -/
def clips_to_process (items : List SubClippedVideoClip) (audio_duration : ℚ) :
    List (ℕ × SubClippedVideoClip) :=
  clipsToProcessGo 0 audio_duration 0 items

/-! ## C3: result assembly of `combine_videos` (lines 689-722) -/

/-- Embedding of the result collection: `completed` lists the futures in
completion order as pairs of the original input index and the worker's
result (`none` when the worker failed).  The Python dict keyed by index is
an association list, `sorted(dict.keys())` is an insertion sort, and the
comprehension `[dict[i] for i in sorted(keys)]` is a lookup per key. -/
def assembleProcessedClips {α : Type} (completed : List (ℕ × Option α)) : List α :=
  let successes := completed.filterMap fun p => (p.2).map fun r => (p.1, r)
  let sortedKeys := List.insertionSort (· ≤ ·) (successes.map Prod.fst)
  sortedKeys.filterMap fun i => (successes.find? fun q => q.1 == i).map Prod.snd

/-! ## C6: `delete_files` and the single-clip concat path (lines 444-452,
741-747) -/

/-- An element of the list passed to `delete_files`: the correct call
sites pass path strings, the single-clip concat path passes the
`SubClippedVideoClip` objects themselves. -/
inductive DelFileArg where
  | pathArg (p : List Char)
  | clipArg (c : SubClippedVideoClip)
deriving DecidableEq

/-- One `os.remove(file)` under the bare `except: pass`: removing an
existing path deletes it, a missing path raises and is swallowed, and a
non-string argument raises `TypeError`, which the bare except also
swallows, leaving the file set unchanged. -/
def osRemoveCaught (fs : List (List Char)) (e : DelFileArg) : List (List Char) :=
  match e with
  | .pathArg p => fs.erase p
  | .clipArg _ => fs

/-- Embedding of `delete_files` acting on an explicit file set. -/
def delete_files (files : List DelFileArg) (fs : List (List Char)) : List (List Char) :=
  files.foldl osRemoveCaught fs

/-- Embedding of the `len(processed_clips) == 1` branch of
`combine_videos` (lines 742-747): `shutil.copy` materialises the output
path, then `delete_files(processed_clips)` is called on the list of clip
objects. -/
def combineSingleClip (c : SubClippedVideoClip) (combined_video_path : List Char)
    (fs : List (List Char)) : List (List Char) :=
  delete_files [DelFileArg.clipArg c] (combined_video_path :: fs)

/-! ## C8: `hex_to_ass_color` (video.py lines 928-947) -/

/-- Embedding of `hex_to_ass_color`: strip, remove leading `#`, and if
exactly 6 characters remain emit `&H` ++ blue ++ green ++ red ++ `&`;
otherwise the default white.  The `try` block of the source only slices,
which cannot raise, so there is no other failure path. -/
def hex_to_ass_color (hex_color : List Char) : List Char :=
  let h := (pyStrip hex_color).dropWhile (fun c => c == '#')
  if h.length ≠ 6 then "&HFFFFFF&".toList
  else "&H".toList ++ ((h.drop 4).take 2 ++ ((h.drop 2).take 2 ++ (h.take 2 ++ ['&'])))

/-- Modelled from the spec: the inverse extraction `ass_to_hex` used by
the round-trip law (no such function exists in the source); it reads
`&HBBGGRR&` back as `#RRGGBB`. -/
def ass_to_hex (l : List Char) : List Char :=
  match l with
  | '&' :: 'H' :: b1 :: b2 :: g1 :: g2 :: r1 :: r2 :: '&' :: [] =>
    '#' :: [r1, r2, g1, g2, b1, b2]
  | _ => []

/-- Uppercase hexadecimal digit characters, as an explicit list so that
facts about a quantified digit reduce to 16 concrete cases. -/
def isHexUpperDigit (c : Char) : Bool :=
  ['0', '1', '2', '3', '4', '5', '6', '7', '8', '9', 'A', 'B', 'C', 'D', 'E', 'F'].contains c

/-! ## C9: `srt_time_to_ass_time` (video.py lines 950-970) -/

/-- Embedding of `srt_time_to_ass_time`: replace `,` by `.`, split on
`:`; on exactly three parts parse hours/minutes/seconds, truncate the
fraction to two characters (right-padded with `0`), and format with bare
hours and zero-padded minutes and seconds; on any other shape return the
input (with `,` replaced) unchanged.  `none` models the uncaught
`ValueError` of `int()` on a non-digit part. -/
def srt_time_to_ass_time (srt_time : List Char) : Option (List Char) :=
  let time_str := srt_time.map fun c => if c == ',' then '.' else c
  match pySplit ':' time_str with
  | [p0, p1, p2] =>
    match parseNat p0, parseNat p1 with
    | some hours, some minutes =>
      let seconds_parts := pySplit '.' p2
      match parseNat (seconds_parts.headD []) with
      | some seconds =>
        let centiseconds :=
          if 1 < seconds_parts.length then pyLjust 2 '0' ((seconds_parts.getD 1 []).take 2)
          else ['0', '0']
        some (natToChars hours ++ ':' :: padZero2 minutes ++ ':' :: padZero2 seconds
          ++ '.' :: centiseconds)
      | none => none
    | _, _ => none
  | _ => some time_str

/-- Builder of a two-digit decimal field (tens digit, ones digit). -/
def twoDigitChars (n : ℕ) : List Char :=
  [digitChar (n / 10), digitChar n]

/-- Builder of a three-digit decimal field. -/
def threeDigitChars (n : ℕ) : List Char :=
  [digitChar (n / 100), digitChar (n / 10), digitChar n]

/-- A well-formed SRT time `HH:MM:SS,mmm` built from its numeric fields. -/
def srtTimeChars (h m s ms : ℕ) : List Char :=
  twoDigitChars h ++ (':' :: (twoDigitChars m ++ (':' :: (twoDigitChars s ++ (',' :: threeDigitChars ms)))))

/-- An ASS time `H:MM:SS.cc` built from its numeric fields (hours without
leading zero). -/
def assTimeChars (h m s cc : ℕ) : List Char :=
  natToChars h ++ (':' :: (twoDigitChars m ++ (':' :: (twoDigitChars s ++ ('.' :: twoDigitChars cc)))))

/-- Modelled from the spec: the inverse `srt_from_ass` of the round-trip
law (no such function exists in the source).  It parses `H:MM:SS.cc` and
re-emits the SRT form `HH:MM:SS,mmm` with `mmm = cc * 10`. -/
def srt_from_ass (ass_time : List Char) : Option (List Char) :=
  match pySplit ':' ass_time with
  | [p0, p1, p2] =>
    match parseNat p0, parseNat p1 with
    | some hours, some minutes =>
      match pySplit '.' p2 with
      | [ps, pc] =>
        match parseNat ps, parseNat pc with
        | some seconds, some centis =>
          some (twoDigitChars hours ++ ':' :: twoDigitChars minutes
            ++ ':' :: twoDigitChars seconds ++ ',' :: threeDigitChars (centis * 10))
        | _, _ => none
      | _ => none
    | _, _ => none
  | _ => none

/-! ## C10: the cue loop of `srt_to_ass` (video.py lines 1161-1191) -/

/-- Parser for one `HH:MM:SS,mmm` group of the time-line regex: twelve
characters of the exact digit/punctuation shape, returning the group and
the rest of the input. -/
def matchTimeChunk : List Char → Option (List Char × List Char)
  | d1 :: d2 :: c1 :: d3 :: d4 :: c2 :: d5 :: d6 :: c3 :: e1 :: e2 :: e3 :: rest =>
    if d1.isDigit && d2.isDigit && c1 == ':' && d3.isDigit && d4.isDigit && c2 == ':'
        && d5.isDigit && d6.isDigit && c3 == ',' && e1.isDigit && e2.isDigit && e3.isDigit
    then some ([d1, d2, c1, d3, d4, c2, d5, d6, c3, e1, e2, e3], rest)
    else none
  | _ => none

/-- Model of `re.match` with the pattern
`(\d2:\d2:\d2,\d3)\s*-->\s*(\d2:\d2:\d2,\d3)` (written here with the
digit counts inlined): anchored at the start, trailing input allowed. -/
def timePatternMatch (l : List Char) : Option (List Char × List Char) :=
  match matchTimeChunk l with
  | none => none
  | some (t1, r1) =>
    match r1.dropWhile Char.isWhitespace with
    | '-' :: '-' :: '>' :: r3 =>
      match matchTimeChunk (r3.dropWhile Char.isWhitespace) with
      | none => none
      | some (t2, _) => some (t1, t2)
    | _ => none

/-- Model of the newline normalisation `replace("\r\n","\n")` then
`replace("\r","\n")`. -/
def normalizeNewlines : List Char → List Char
  | [] => []
  | '\r' :: '\n' :: t => '\n' :: normalizeNewlines t
  | '\r' :: t => '\n' :: normalizeNewlines t
  | c :: t => c :: normalizeNewlines t

/-- Per-character ASS escaping: backslash doubled, braces prefixed with a
backslash, newline to `\N`.  The sequential `str.replace` calls of the
source are equivalent to this single pass because no replacement output
re-triggers a later rule. -/
def escAssChar (c : Char) : List Char :=
  if c = '\\' then ['\\', '\\']
  else if c = Char.ofNat 123 then ['\\', Char.ofNat 123]
  else if c = Char.ofNat 125 then ['\\', Char.ofNat 125]
  else if c = '\n' then ['\\', 'N']
  else [c]

/-- ASS escaping of a whole text. -/
def escapeAssChars : List Char → List Char
  | [] => []
  | c :: t => escAssChar c ++ escapeAssChars t

/-- Embedding of one iteration of the cue loop of `srt_to_ass`: `none`
when the cue is skipped (`continue`), otherwise the Dialogue payload
(converted start time, converted end time, escaped text).  As in the
source, the time line is matched and converted before the text is
stripped and tested. -/
def convertCue (cue : ℕ × List Char × List Char) : Option (List Char × List Char × List Char) :=
  match timePatternMatch cue.2.1 with
  | none => none
  | some (t1, t2) =>
    match srt_time_to_ass_time t1, srt_time_to_ass_time t2 with
    | some a1, some a2 =>
      let text := pyStrip cue.2.2
      if text = [] then none
      else some (a1, a2, escapeAssChars (normalizeNewlines text))
    | _, _ => none

/-- Outcome of the event stage of `srt_to_ass`: the function returns
`False` early when the parsed subtitle list is empty (line 1054) and again
when `dialogue_count == 0` after the loop (line 1189); otherwise this
stage succeeds.  (The font lookup and file output that surround this
stage are independent of the claim and not modelled.) -/
def srtToAssEventsOk (items : List (ℕ × List Char × List Char)) : Bool :=
  !items.isEmpty && !(items.filterMap convertCue).isEmpty

/-! ## Helper lemmas about the string primitives -/

theorem pySplit_ne_nil (sep : Char) (l : List Char) : pySplit sep l ≠ [] := by
  induction l with
  | nil => simp [pySplit]
  | cons c t ih =>
    simp only [pySplit]
    split
    · simp
    · cases h : pySplit sep t with
      | nil => exact absurd h ih
      | cons a b => simp

theorem pySplit_no_sep (sep : Char) (l : List Char) (h : ∀ c ∈ l, c ≠ sep) :
    pySplit sep l = [l] := by
  induction l with
  | nil => rfl
  | cons c t ih =>
    have hc : c ≠ sep := h c (by simp)
    have ht := ih fun x hx => h x (by simp [hx])
    simp [pySplit, if_neg hc, ht]

theorem pySplit_append (sep : Char) (l₁ l₂ : List Char) (h : ∀ c ∈ l₁, c ≠ sep) :
    pySplit sep (l₁ ++ sep :: l₂) = l₁ :: pySplit sep l₂ := by
  induction l₁ with
  | nil => simp [pySplit]
  | cons c t ih =>
    have hc : c ≠ sep := h c (by simp)
    have ht := ih fun x hx => h x (by simp [hx])
    simp [pySplit, if_neg hc, ht]

theorem digitChar_props (n : ℕ) :
    (digitChar n).isDigit = true ∧ (digitChar n).toNat = 48 + n % 10 ∧
      digitChar n ≠ ':' ∧ digitChar n ≠ '.' ∧ digitChar n ≠ ',' ∧
      (digitChar n).isWhitespace = false := by
  have h10 : n % 10 < 10 := Nat.mod_lt _ (by norm_num)
  unfold digitChar
  generalize hk : n % 10 = k
  rw [hk] at h10
  interval_cases k <;> exact ⟨by decide, by decide, by decide, by decide, by decide, by decide⟩

theorem digitChar_ne_colon (n : ℕ) : digitChar n ≠ ':' := (digitChar_props n).2.2.1

theorem digitChar_ne_dot (n : ℕ) : digitChar n ≠ '.' := (digitChar_props n).2.2.2.1

theorem digitChar_ne_comma (n : ℕ) : digitChar n ≠ ',' := (digitChar_props n).2.2.2.2.1

theorem charDigitVal_digitChar (n : ℕ) : charDigitVal (digitChar n) = some (n % 10) := by
  have h := digitChar_props n
  simp [charDigitVal, h.1, h.2.1]

theorem parseNat_twoDigit (n : ℕ) (h : n < 100) : parseNat (twoDigitChars n) = some n := by
  simp [parseNat, twoDigitChars, parseNatGo, charDigitVal_digitChar]
  omega

theorem natToCharsGo_small (fuel n : ℕ) (h : n < 10) :
    natToCharsGo (fuel + 1) n = [digitChar n] := by
  simp [natToCharsGo, h]

theorem natToChars_small (n : ℕ) (h : n < 10) : natToChars n = [digitChar n] :=
  natToCharsGo_small n n h

theorem natToChars_two (n : ℕ) (h1 : 10 ≤ n) (h2 : n < 100) :
    natToChars n = [digitChar (n / 10), digitChar n] := by
  obtain ⟨f, rfl⟩ : ∃ f, n = f + 1 := ⟨n - 1, by omega⟩
  have hnot : ¬(f + 1 < 10) := by omega
  rw [natToChars]
  show natToCharsGo (f + 1 + 1) (f + 1) = _
  rw [natToCharsGo, if_neg hnot, natToCharsGo_small _ _ (by omega)]
  rfl

theorem parseNat_natToChars (n : ℕ) (h : n < 100) : parseNat (natToChars n) = some n := by
  by_cases h10 : n < 10
  · rw [natToChars_small n h10]
    simp [parseNat, parseNatGo, charDigitVal_digitChar]
    omega
  · rw [natToChars_two n (by omega) h]
    have := parseNat_twoDigit n h
    rwa [twoDigitChars] at this

theorem padZero2_eq_twoDigit (n : ℕ) (h : n < 100) : padZero2 n = twoDigitChars n := by
  by_cases h10 : n < 10
  · have hz : digitChar 0 = '0' := by decide
    simp [padZero2, natToChars_small n h10, twoDigitChars, Nat.div_eq_of_lt h10, hz,
      List.replicate]
  · simp [padZero2, natToChars_two n (by omega) h, twoDigitChars]

/-! ## C9 support: splitting a well-formed time string -/

theorem twoDigit_ne_colon (n : ℕ) : ∀ c ∈ twoDigitChars n, c ≠ ':' := by
  intro c hc
  simp [twoDigitChars] at hc
  rcases hc with rfl | rfl <;> exact digitChar_ne_colon _

theorem twoDigit_ne_dot (n : ℕ) : ∀ c ∈ twoDigitChars n, c ≠ '.' := by
  intro c hc
  simp [twoDigitChars] at hc
  rcases hc with rfl | rfl <;> exact digitChar_ne_dot _

theorem secondsChunk_ne_colon (s ms : ℕ) :
    ∀ c ∈ twoDigitChars s ++ '.' :: threeDigitChars ms, c ≠ ':' := by
  intro c hc
  simp [twoDigitChars, threeDigitChars] at hc
  rcases hc with rfl | rfl | rfl | rfl | rfl | rfl
  · exact digitChar_ne_colon _
  · exact digitChar_ne_colon _
  · decide
  · exact digitChar_ne_colon _
  · exact digitChar_ne_colon _
  · exact digitChar_ne_colon _

theorem threeDigit_ne_dot (n : ℕ) : ∀ c ∈ threeDigitChars n, c ≠ '.' := by
  intro c hc
  simp [threeDigitChars] at hc
  rcases hc with rfl | rfl | rfl <;> exact digitChar_ne_dot _

theorem natToChars_ne_colon (n : ℕ) (h : n < 100) : ∀ c ∈ natToChars n, c ≠ ':' := by
  intro c hc
  by_cases h10 : n < 10
  · rw [natToChars_small n h10] at hc
    simp at hc
    subst hc
    exact digitChar_ne_colon _
  · rw [natToChars_two n (by omega) h] at hc
    simp at hc
    rcases hc with rfl | rfl <;> exact digitChar_ne_colon _

theorem commaToDot_map_srt (h m s ms : ℕ) :
    (srtTimeChars h m s ms).map (fun c => if c == ',' then '.' else c) =
      twoDigitChars h ++ (':' :: (twoDigitChars m ++ (':' :: (twoDigitChars s ++ ('.' :: threeDigitChars ms))))) := by
  have hd : ∀ n : ℕ, (if digitChar n == ',' then '.' else digitChar n) = digitChar n :=
    fun n => by rw [if_neg]; simp [digitChar_ne_comma n]
  have h1 : ((':' : Char) == ',') = false := by decide
  have h2 : ((',' : Char) == ',') = true := by decide
  simp [srtTimeChars, twoDigitChars, threeDigitChars, hd, h1, h2]
  refine ⟨?_, ?_, ?_, ?_, ?_, ?_, ?_, ?_, ?_⟩ <;>
    exact fun hx => absurd hx (digitChar_ne_comma _)

/-- Claim C9, corrected: `srt_time_to_ass_time` maps every well-formed SRT
time `HH:MM:SS,mmm` to the ASS form `H:MM:SS.cc` where `cc` is the
millisecond field truncated to centiseconds, and the spec's inverse
`srt_from_ass` recovers not the original time but the time with the
milliseconds truncated to a multiple of ten — so the round trip recovers
`t` exactly when the last millisecond digit is `0`, and the conversion is
not injective on well-formed SRT times. -/
theorem c9_time_conversion (h m s ms : ℕ) (hh : h < 100) (hm : m < 60) (hs : s < 60)
    (hms : ms < 1000) :
    srt_time_to_ass_time (srtTimeChars h m s ms) = some (assTimeChars h m s (ms / 10)) ∧
      srt_from_ass (assTimeChars h m s (ms / 10)) = some (srtTimeChars h m s (ms / 10 * 10)) := by
  have hm100 : m < 100 := by omega
  have hs100 : s < 100 := by omega
  have hcc : ms / 10 < 100 := by omega
  have hdiv : ms / 10 / 10 = ms / 100 := by rw [Nat.div_div_eq_div_mul]
  constructor
  · have hdot : pySplit '.' (twoDigitChars s ++ '.' :: threeDigitChars ms) =
        [twoDigitChars s, threeDigitChars ms] := by
      rw [pySplit_append '.' _ _ (twoDigit_ne_dot s), pySplit_no_sep '.' _ (threeDigit_ne_dot ms)]
    have htake : (threeDigitChars ms).take 2 = [digitChar (ms / 100), digitChar (ms / 10)] := rfl
    simp only [srt_time_to_ass_time]
    rw [commaToDot_map_srt, pySplit_append ':' _ _ (twoDigit_ne_colon h),
      pySplit_append ':' _ _ (twoDigit_ne_colon m),
      pySplit_no_sep ':' _ (secondsChunk_ne_colon s ms)]
    simp only [parseNat_twoDigit h hh, parseNat_twoDigit m hm100, hdot,
      List.headD_cons, parseNat_twoDigit s hs100, List.length_cons, List.length_nil,
      List.getD_cons_succ, List.getD_cons_zero, htake]
    rw [if_pos (by norm_num), padZero2_eq_twoDigit m hm100, padZero2_eq_twoDigit s hs100]
    simp [pyLjust, assTimeChars, twoDigitChars, hdiv]
  · have hC2 : ∀ c ∈ twoDigitChars s ++ '.' :: twoDigitChars (ms / 10), c ≠ ':' := by
      intro c hc
      simp [twoDigitChars] at hc
      rcases hc with rfl | rfl | rfl | rfl | rfl
      · exact digitChar_ne_colon _
      · exact digitChar_ne_colon _
      · decide
      · exact digitChar_ne_colon _
      · exact digitChar_ne_colon _
    have hdot2 : pySplit '.' (twoDigitChars s ++ '.' :: twoDigitChars (ms / 10)) =
        [twoDigitChars s, twoDigitChars (ms / 10)] := by
      rw [pySplit_append '.' _ _ (twoDigit_ne_dot s), pySplit_no_sep '.' _ (twoDigit_ne_dot _)]
    simp only [srt_from_ass, assTimeChars]
    rw [pySplit_append ':' _ _ (natToChars_ne_colon h hh),
      pySplit_append ':' _ _ (twoDigit_ne_colon m), pySplit_no_sep ':' _ hC2]
    simp only [parseNat_natToChars h hh, parseNat_twoDigit m hm100, hdot2,
      parseNat_twoDigit s hs100, parseNat_twoDigit _ hcc]
    simp [srtTimeChars]

/-- Claim C9, counterexample to the claim as stated: two distinct
well-formed SRT times that differ only in the last millisecond digit are
mapped to the same ASS time, so no `srt_from_ass` can recover both and the
conversion is not injective. -/
theorem c9_counterexample :
    srt_time_to_ass_time "00:00:01,234".toList = some "0:00:01.23".toList ∧
      srt_time_to_ass_time "00:00:01,239".toList = some "0:00:01.23".toList ∧
      "00:00:01,234".toList ≠ "00:00:01,239".toList :=
  ⟨by decide, by decide, by decide⟩

/-- Witness for `c9_time_conversion` at `01:02:03,456`. -/
theorem c9_witness :
    (1 : ℕ) < 100 ∧ (2 : ℕ) < 60 ∧ (3 : ℕ) < 60 ∧ (456 : ℕ) < 1000 ∧
      (srt_time_to_ass_time (srtTimeChars 1 2 3 456) = some (assTimeChars 1 2 3 (456 / 10)) ∧
        srt_from_ass (assTimeChars 1 2 3 (456 / 10)) = some (srtTimeChars 1 2 3 (456 / 10 * 10))) :=
  ⟨by decide, by decide, by decide, by decide,
    c9_time_conversion 1 2 3 456 (by decide) (by decide) (by decide) (by decide)⟩

/-! ## C8 support -/

theorem hexUpperDigit_props (c : Char) (h : isHexUpperDigit c = true) :
    c.isWhitespace = false ∧ (c == '#') = false := by
  have hc : c ∈ ['0', '1', '2', '3', '4', '5', '6', '7', '8', '9', 'A', 'B', 'C', 'D', 'E', 'F'] := by
    simpa [isHexUpperDigit] using h
  fin_cases hc <;> exact ⟨by decide, by decide⟩

theorem pyStrip_hash_hex (c1 c2 c3 c4 c5 c6 : Char)
    (h1 : isHexUpperDigit c1 = true) (h2 : isHexUpperDigit c2 = true)
    (h3 : isHexUpperDigit c3 = true) (h4 : isHexUpperDigit c4 = true)
    (h5 : isHexUpperDigit c5 = true) (h6 : isHexUpperDigit c6 = true) :
    pyStrip ['#', c1, c2, c3, c4, c5, c6] = ['#', c1, c2, c3, c4, c5, c6] := by
  have hw : ('#' : Char).isWhitespace = false := by decide
  have w6 := (hexUpperDigit_props c6 h6).1
  simp [pyStrip, List.dropWhile_cons, hw, w6]

/-- Claim C8, corrected: for a six-character color after `#`, the
conversion reorders the red/green/blue byte pairs into the ASS BGR string
and the spec's extraction recovers the original; the only inputs mapped to
the default white `&HFFFFFF&` are those whose stripped length differs from
six (such as `#GGH` and the empty string) — six-character non-hex input is
transcribed verbatim, not replaced by white. -/
theorem c8_color_conversion (c1 c2 c3 c4 c5 c6 : Char)
    (h1 : isHexUpperDigit c1 = true) (h2 : isHexUpperDigit c2 = true)
    (h3 : isHexUpperDigit c3 = true) (h4 : isHexUpperDigit c4 = true)
    (h5 : isHexUpperDigit c5 = true) (h6 : isHexUpperDigit c6 = true) :
    hex_to_ass_color ['#', c1, c2, c3, c4, c5, c6] = ['&', 'H', c5, c6, c3, c4, c1, c2, '&'] ∧
      ass_to_hex (hex_to_ass_color ['#', c1, c2, c3, c4, c5, c6]) = ['#', c1, c2, c3, c4, c5, c6] ∧
      hex_to_ass_color "#GGH".toList = "&HFFFFFF&".toList ∧
      hex_to_ass_color [] = "&HFFFFFF&".toList := by
  have hstrip := pyStrip_hash_hex c1 c2 c3 c4 c5 c6 h1 h2 h3 h4 h5 h6
  have hne1 := (hexUpperDigit_props c1 h1).2
  have hdrop : (pyStrip ['#', c1, c2, c3, c4, c5, c6]).dropWhile (fun c => c == '#') =
      [c1, c2, c3, c4, c5, c6] := by
    rw [hstrip]
    simp [List.dropWhile_cons, hne1]
  have hmain : hex_to_ass_color ['#', c1, c2, c3, c4, c5, c6] =
      ['&', 'H', c5, c6, c3, c4, c1, c2, '&'] := by
    simp [hex_to_ass_color, hdrop]
  refine ⟨hmain, ?_, by decide, by decide⟩
  rw [hmain]
  simp [ass_to_hex]

/-- Claim C8, counterexample to the claim as stated: `#GGHHII` is not six
hexadecimal digits, yet it is transcribed to `&HIIHHGG&` rather than
mapped to the default white `&HFFFFFF&`. -/
theorem c8_counterexample :
    hex_to_ass_color "#GGHHII".toList = "&HIIHHGG&".toList ∧
      "&HIIHHGG&".toList ≠ "&HFFFFFF&".toList ∧ isHexUpperDigit 'G' = false :=
  ⟨by decide, by decide, by decide⟩

/-- Witness for `c8_color_conversion` at `#FF8800`. -/
theorem c8_witness :
    isHexUpperDigit 'F' = true ∧ isHexUpperDigit '8' = true ∧ isHexUpperDigit '0' = true ∧
      (hex_to_ass_color ['#', 'F', 'F', '8', '8', '0', '0'] =
          ['&', 'H', '0', '0', '8', '8', 'F', 'F', '&'] ∧
        ass_to_hex (hex_to_ass_color ['#', 'F', 'F', '8', '8', '0', '0']) =
          ['#', 'F', 'F', '8', '8', '0', '0'] ∧
        hex_to_ass_color "#GGH".toList = "&HFFFFFF&".toList ∧
        hex_to_ass_color [] = "&HFFFFFF&".toList) :=
  ⟨by decide, by decide, by decide,
    c8_color_conversion 'F' 'F' '8' '8' '0' '0' (by decide) (by decide) (by decide)
      (by decide) (by decide) (by decide)⟩

/-! ## C7 theorems -/

/-- Claim C7, corrected: the driver gate accepts exactly the majors at
least 570 (`569.99` rejected, `570.0` accepted) and on acceptance
`detect_gpu` reports vendor `nvidia`; but when an NVIDIA GPU is detected
and the driver check fails, `detect_gpu` concludes `none` immediately —
the subsequent platform steps (Windows wmic, macOS display profile, Linux
vendor file) are not tried. -/
theorem c7_driver_gate (env : GpuEnv) (stdout : List Char)
    (hq : env.nvidiaQuery = some stdout) (hne : pyStrip stdout ≠ []) :
    detect_gpu env =
        (if check_nvidia_driver_version env.driverQuery then some "nvidia".toList else none) ∧
      check_nvidia_driver_version (some "569.99".toList) = false ∧
      check_nvidia_driver_version (some "570.0".toList) = true := by
  refine ⟨?_, by decide, by decide⟩
  simp [detect_gpu, hq, hne]

/-- Claim C7, counterexample to the claim as stated: on a Windows host
whose NVIDIA driver is `569.99` and whose wmic scan reports an AMD Radeon
card, the claimed behaviour (continue with the platform steps) would yield
vendor `amd`, but `detect_gpu` returns `none` immediately. -/
theorem c7_counterexample :
    detect_gpu ⟨"Windows".toList, some "NVIDIA GeForce RTX 3090".toList,
        some "569.99".toList, some "AMD Radeon RX 6800 XT".toList, none, none⟩ = none ∧
      detectGpuClaimed ⟨"Windows".toList, some "NVIDIA GeForce RTX 3090".toList,
        some "569.99".toList, some "AMD Radeon RX 6800 XT".toList, none, none⟩ =
        some "amd".toList :=
  ⟨by decide, by decide⟩

/-- Witness for `c7_driver_gate` on a host with driver `570.61`. -/
theorem c7_witness :
    pyStrip "NVIDIA GeForce RTX 3090".toList ≠ [] ∧
      detect_gpu ⟨"Linux".toList, some "NVIDIA GeForce RTX 3090".toList,
          some "570.61".toList, none, none, none⟩ =
        (if check_nvidia_driver_version (some "570.61".toList) then some "nvidia".toList
          else none) :=
  ⟨by decide,
    (c7_driver_gate ⟨"Linux".toList, some "NVIDIA GeForce RTX 3090".toList,
        some "570.61".toList, none, none, none⟩ _ rfl (by decide)).1⟩

/-! ## C5 theorems -/

theorem gpuEncoder_ne_libx264 (codec : List Char) (h : codec ∈ gpuEncoderValues) :
    codec ≠ "libx264".toList := by
  simp [gpuEncoderValues] at h
  rcases h with rfl | rfl | rfl | rfl <;> decide

/-- Claim C5, confirmed: with a GPU encoder as the chosen codec, a write
error whose message contains one of the fallback keywords triggers exactly
one retry with `libx264`; a non-matching error is re-raised with no retry;
a successful write is not retried; and with `libx264` already chosen the
write happens once with no retry. -/
theorem c5_encoder_fallback (codec : List Char) (write : List Char → Option (List Char))
    (hgpu : codec ∈ gpuEncoderValues) :
    (∀ e, write codec = some e → errorMatchesFallback e = true →
        write_videofile_with_fallback codec "libx264".toList write =
          (write "libx264".toList, [codec, "libx264".toList])) ∧
      (∀ e, write codec = some e → errorMatchesFallback e = false →
        write_videofile_with_fallback codec "libx264".toList write = (some e, [codec])) ∧
      (write codec = none →
        write_videofile_with_fallback codec "libx264".toList write = (none, [codec])) ∧
      (∀ w : List Char → Option (List Char),
        write_videofile_with_fallback "libx264".toList "libx264".toList w =
          (w "libx264".toList, ["libx264".toList])) := by
  have hne : codec ≠ "libx264".toList := gpuEncoder_ne_libx264 codec hgpu
  have hne' : codec ≠ ['l', 'i', 'b', 'x', '2', '6', '4'] := by simpa using hne
  refine ⟨?_, ?_, ?_, ?_⟩
  · intro e he hm
    simp [write_videofile_with_fallback, hne', hgpu, he, hm]
  · intro e he hm
    simp [write_videofile_with_fallback, hne', hgpu, he, hm]
  · intro h0
    simp [write_videofile_with_fallback, hne', hgpu, h0]
  · intro w
    simp [write_videofile_with_fallback]

/-- Witness for `c5_encoder_fallback`: an NVENC failure whose message
contains `nvenc` falls back to `libx264`, which then succeeds. -/
theorem c5_witness :
    "h264_nvenc".toList ∈ gpuEncoderValues ∧
      write_videofile_with_fallback "h264_nvenc".toList "libx264".toList
          (fun c =>
            if c = "h264_nvenc".toList then some "No NVENC capable devices found".toList
            else none) =
        (none, ["h264_nvenc".toList, "libx264".toList]) := by
  constructor
  · decide
  · exact ((c5_encoder_fallback "h264_nvenc".toList
        (fun c =>
          if c = "h264_nvenc".toList then some "No NVENC capable devices found".toList
          else none) (by decide)).1
      "No NVENC capable devices found".toList (by decide) (by decide)).trans (by decide)

/-! ## C10 theorems -/

theorem convertCue_skips (cue : ℕ × List Char × List Char)
    (h : timePatternMatch cue.2.1 = none ∨ pyStrip cue.2.2 = []) :
    convertCue cue = none := by
  rcases h with h | h
  · simp [convertCue, h]
  · unfold convertCue
    cases htm : timePatternMatch cue.2.1 with
    | none => rfl
    | some p =>
      obtain ⟨t1, t2⟩ := p
      cases h1 : srt_time_to_ass_time t1 <;> cases h2 : srt_time_to_ass_time t2 <;>
        simp [h, h1, h2]

/-- Claim C10, confirmed: a cue whose time line does not match the
anchored pattern `HH:MM:SS,mmm --> HH:MM:SS,mmm` (as `re.match` applies
it), and a cue whose text is empty after stripping, are skipped with no
Dialogue emitted; and if every parsed cue is skipped this way the event
stage of `srt_to_ass` reports failure even though the SRT parsed to a
nonzero number of events. -/
theorem c10_cue_skipping :
    (∀ cue : ℕ × List Char × List Char,
        timePatternMatch cue.2.1 = none ∨ pyStrip cue.2.2 = [] → convertCue cue = none) ∧
      (∀ items : List (ℕ × List Char × List Char), items ≠ [] →
        (∀ cue ∈ items, timePatternMatch cue.2.1 = none ∨ pyStrip cue.2.2 = []) →
        srtToAssEventsOk items = false) := by
  refine ⟨convertCue_skips, ?_⟩
  intro items hne hall
  have hfm : items.filterMap convertCue = [] := by
    rw [List.filterMap_eq_nil_iff]
    intro cue hc
    exact convertCue_skips cue (hall cue hc)
  simp [srtToAssEventsOk, hfm]

/-- Witness for `c10_cue_skipping`: one cue with a malformed time line and
one cue with a valid time line but whitespace-only text make the event
stage fail while the parsed cue list is nonempty. -/
theorem c10_witness :
    ([((1 : ℕ), "not a time".toList, "hello".toList),
        (2, "00:00:01,000 --> 00:00:02,500".toList, "   ".toList)] ≠
        ([] : List (ℕ × List Char × List Char))) ∧
      srtToAssEventsOk [((1 : ℕ), "not a time".toList, "hello".toList),
        (2, "00:00:01,000 --> 00:00:02,500".toList, "   ".toList)] = false := by
  refine ⟨by decide, ?_⟩
  exact c10_cue_skipping.2 _ (by decide) (by decide)

/-! ## C1 theorems -/

/-- Claim C1, counterexample to the claim as stated: a 640×360 source
resized to a 1080×1920 target on the CPU letterbox path (no GPU filter)
produces a temp file of the target size, but the returned
`SubClippedVideoClip` records the source dimensions 640×360, not the
target. -/
theorem c1_counterexample :
    process_single_clip "temp-clip-1.mp4".toList 640 360 10 1080 1920 5 false false =
        ⟨mkProcessedClip "temp-clip-1.mp4".toList 5 640 360, 1080, 1920⟩ ∧
      (640 : ℕ) ≠ 1080 ∧ (360 : ℕ) ≠ 1920 := by
  refine ⟨?_, by decide, by decide⟩
  norm_num [process_single_clip]

/-- Claim C1, amended: the recorded duration never exceeds
`max_clip_duration` and the encoded file always has the target dimensions,
but the recorded width/height equal the target only when no resize was
needed or the GPU resize path succeeded; on the CPU resize/letterbox path
they keep the decoded source dimensions. -/
theorem c1_processed_clip_attributes (clip_file : List Char) (clip_w clip_h : ℕ)
    (clip_duration : ℚ) (video_width video_height : ℕ) (max_clip_duration : ℚ)
    (gpu_scale_filter gpu_resize_success : Bool) :
    (process_single_clip clip_file clip_w clip_h clip_duration video_width video_height
          max_clip_duration gpu_scale_filter gpu_resize_success).recorded.duration ≤
        max_clip_duration ∧
      (process_single_clip clip_file clip_w clip_h clip_duration video_width video_height
          max_clip_duration gpu_scale_filter gpu_resize_success).encoded_width = video_width ∧
      (process_single_clip clip_file clip_w clip_h clip_duration video_width video_height
          max_clip_duration gpu_scale_filter gpu_resize_success).encoded_height = video_height ∧
      ((gpu_scale_filter = true ∧
          (clip_w : ℚ) / clip_h = (video_width : ℚ) / video_height ∧
          gpu_resize_success = true) ∨ (clip_w = video_width ∧ clip_h = video_height) →
        (process_single_clip clip_file clip_w clip_h clip_duration video_width video_height
            max_clip_duration gpu_scale_filter gpu_resize_success).recorded.width =
            video_width ∧
          (process_single_clip clip_file clip_w clip_h clip_duration video_width video_height
            max_clip_duration gpu_scale_filter gpu_resize_success).recorded.height =
            video_height) ∧
      ((clip_w ≠ video_width ∨ clip_h ≠ video_height) →
        ¬(gpu_scale_filter = true ∧
            (clip_w : ℚ) / clip_h = (video_width : ℚ) / video_height ∧
            gpu_resize_success = true) →
        (process_single_clip clip_file clip_w clip_h clip_duration video_width video_height
            max_clip_duration gpu_scale_filter gpu_resize_success).recorded.width = clip_w ∧
          (process_single_clip clip_file clip_w clip_h clip_duration video_width video_height
            max_clip_duration gpu_scale_filter gpu_resize_success).recorded.height =
            clip_h) := by
  by_cases h1 : clip_w = video_width <;> by_cases h2 : clip_h = video_height <;>
    by_cases h3 : gpu_scale_filter = true <;>
    by_cases h4 : (clip_w : ℚ) / clip_h = (video_width : ℚ) / video_height <;>
    by_cases h5 : gpu_resize_success = true <;>
    by_cases h6 : clip_duration ≤ max_clip_duration <;>
    simp [process_single_clip, mkProcessedClip, h1, h2, h3, h4, h5, h6] <;>
    first
    | linarith
    | tauto

/-- Witness for `c1_processed_clip_attributes`: a 540×960 source with the
same aspect ratio as the 1080×1920 target goes through the GPU path and
records the target dimensions. -/
theorem c1_witness :
    (process_single_clip "t".toList 540 960 10 1080 1920 5 true true).recorded.width = 1080 ∧
      (process_single_clip "t".toList 540 960 10 1080 1920 5 true true).recorded.height =
        1920 :=
  (c1_processed_clip_attributes "t".toList 540 960 10 1080 1920 5 true true).2.2.2.1
    (Or.inl ⟨rfl, by norm_num, rfl⟩)

/-! ## C2 theorems -/

/-- Claim C2 is contradicted by the code: the pre-dispatch filter's break
condition compares the narration duration against `video_duration`, which
is still 0 when the loop runs, so for any non-negative narration duration
every planned window is dispatched (with its original input index) — no
prefix based on cumulative planned duration is taken. -/
theorem c2_dispatch_all_windows (items : List SubClippedVideoClip) (audio_duration : ℚ)
    (haudio : 0 ≤ audio_duration) :
    clips_to_process items audio_duration = items.enum := by
  have hnot : ¬audio_duration < 0 := not_lt.2 haudio
  suffices h : ∀ i, clipsToProcessGo 0 audio_duration i items = items.enumFrom i by
    simpa [clips_to_process, List.enum] using h 0
  induction items with
  | nil => intro i; rfl
  | cons x xs ih =>
    intro i
    simp [clipsToProcessGo, hnot, ih (i + 1)]

/-- Witness for `c2_dispatch_all_windows`: three 5-second windows against
a 4-second narration are all dispatched, although the claimed prefix rule
would stop after the first window. -/
theorem c2_witness :
    (0 : ℚ) ≤ 4 ∧
      clips_to_process
          [mkWindowClip "a".toList 0 5 1080 1920, mkWindowClip "a".toList 5 10 1080 1920,
            mkWindowClip "a".toList 10 15 1080 1920] 4 =
        [mkWindowClip "a".toList 0 5 1080 1920, mkWindowClip "a".toList 5 10 1080 1920,
          mkWindowClip "a".toList 10 15 1080 1920].enum :=
  ⟨by norm_num, c2_dispatch_all_windows _ 4 (by norm_num)⟩

/-! ## C4 theorems -/

theorem planClipLoop_stop (p : List Char) (w h : ℕ) (maxd dur : ℚ) (seq : Bool)
    (fuel : ℕ) (start : ℚ) (hstop : ¬start < dur) :
    planClipLoop p w h maxd dur seq fuel start = some [] := by
  cases fuel <;> simp [planClipLoop, hstop]

theorem planClipLoop_invariant (p : List Char) (w h : ℕ) (maxd dur : ℚ) (seq : Bool)
    (hmax : 0 < maxd) :
    ∀ fuel start ws, planClipLoop p w h maxd dur seq fuel start = some ws → 0 ≤ start →
      ∀ cl ∈ ws, ∃ st et, cl = mkWindowClip p st et w h ∧ 0 ≤ st ∧ st < et ∧ et ≤ dur ∧
        et - st = maxd := by
  intro fuel
  induction fuel with
  | zero =>
    intro start ws hws hstart cl hcl
    by_cases hlt : start < dur
    · simp [planClipLoop, hlt] at hws
    · simp [planClipLoop, hlt] at hws
      subst hws
      simp at hcl
  | succ fuel ih =>
    intro start ws hws hstart cl hcl
    by_cases hlt : start < dur
    · simp only [planClipLoop, if_pos hlt] at hws
      have hmem : cl ∈ (if maxd ≤ dur - start then
          [mkWindowClip p start (min (start + maxd) dur) w h] else []) →
          ∃ st et, cl = mkWindowClip p st et w h ∧ 0 ≤ st ∧ st < et ∧ et ≤ dur ∧
            et - st = maxd := by
        intro hmem
        by_cases hemit : maxd ≤ dur - start
        · rw [if_pos hemit] at hmem
          simp at hmem
          subst hmem
          refine ⟨start, min (start + maxd) dur, rfl, hstart, ?_, min_le_right _ _, ?_⟩
          · rw [min_eq_left (by linarith)]
            linarith
          · rw [min_eq_left (by linarith)]
            ring
        · rw [if_neg hemit] at hmem
          simp at hmem
      by_cases hseq : seq = true
      · rw [if_pos hseq] at hws
        obtain rfl := Option.some.inj hws
        exact hmem hcl
      · rw [if_neg hseq] at hws
        obtain ⟨rest, hrest, rfl⟩ := Option.map_eq_some'.1 hws
        rcases List.mem_append.1 hcl with hcl' | hcl'
        · exact hmem hcl'
        · have hend0 : (0 : ℚ) ≤ min (start + maxd) dur :=
            le_min (by linarith) (by linarith)
          exact ih (min (start + maxd) dur) rest hrest hend0 cl hcl'
    · rw [planClipLoop_stop p w h maxd dur seq _ start hlt] at hws
      obtain rfl := Option.some.inj hws
      simp at hcl

/-- Claim C4, corrected: the claim holds once `max_clip_duration` is
positive — every emitted window satisfies
`0 ≤ start < end ≤ duration ∧ end - start = max_clip_duration`, sequential
mode emits at most one window per source, and a source strictly shorter
than `max_clip_duration` yields zero windows.  (At
`max_clip_duration = 0`, the loop emits a degenerate window with
`start = end`, refuting the claim as stated.) -/
theorem c4_planner_invariants (p : List Char) (w h : ℕ) (maxd dur : ℚ) (seq : Bool)
    (fuel : ℕ) (hmax : 0 < maxd) :
    (∀ ws, planClipWindows p w h maxd dur seq fuel = some ws →
        ∀ cl ∈ ws, ∃ st et, cl = mkWindowClip p st et w h ∧ 0 ≤ st ∧ st < et ∧ et ≤ dur ∧
          et - st = maxd) ∧
      (∀ ws, planClipWindows p w h maxd dur true fuel = some ws → ws.length ≤ 1) ∧
      (dur < maxd → 1 ≤ fuel → planClipWindows p w h maxd dur seq fuel = some []) := by
  refine ⟨?_, ?_, ?_⟩
  · intro ws hws
    exact planClipLoop_invariant p w h maxd dur seq hmax fuel 0 ws hws le_rfl
  · intro ws hws
    cases fuel with
    | zero =>
      by_cases hlt : (0 : ℚ) < dur
      · simp [planClipWindows, planClipLoop, hlt] at hws
      · simp [planClipWindows, planClipLoop, hlt] at hws
        subst hws
        simp
    | succ fuel =>
      by_cases hlt : (0 : ℚ) < dur
      · simp only [planClipWindows, planClipLoop, if_pos hlt, if_pos rfl] at hws
        obtain rfl := Option.some.inj hws
        split <;> simp
      · rw [planClipWindows, planClipLoop_stop p w h maxd dur true _ 0 hlt] at hws
        obtain rfl := Option.some.inj hws
        simp
  · intro hdm hfuel
    obtain ⟨f, rfl⟩ : ∃ f, fuel = f + 1 := ⟨fuel - 1, by omega⟩
    rw [planClipWindows]
    by_cases h0 : (0 : ℚ) < dur
    · have hnoemit : ¬maxd ≤ dur - 0 := by
        intro hcon
        linarith
      have hmin : min (0 + maxd) dur = dur := min_eq_right (by linarith)
      by_cases hseq : seq = true
      · simp only [planClipLoop, if_pos h0, if_neg hnoemit, if_pos hseq]
      · simp only [planClipLoop, if_pos h0, if_neg hnoemit, if_neg hseq, hmin,
          planClipLoop_stop p w h maxd dur seq f dur (lt_irrefl dur)]
        rfl
    · exact planClipLoop_stop p w h maxd dur seq _ 0 h0

/-- Claim C4, counterexample to the claim as stated: with
`max_clip_duration = 0` and a 1-second source, sequential planning emits a
degenerate window whose start equals its end, violating
`w.start < w.end`. -/
theorem c4_counterexample :
    planClipWindows "v".toList 1920 1080 0 1 true 1 =
        some [mkWindowClip "v".toList 0 0 1920 1080] ∧
      (mkWindowClip "v".toList 0 0 1920 1080).start_time = some 0 ∧
      (mkWindowClip "v".toList 0 0 1920 1080).end_time = some 0 ∧
      ¬((0 : ℚ) < 0) := by
  refine ⟨?_, rfl, rfl, by norm_num⟩
  norm_num [planClipWindows, planClipLoop, mkWindowClip]

/-- Witness for `c4_planner_invariants` with a 12-second source and
5-second windows. -/
theorem c4_witness :
    (0 : ℚ) < 5 ∧
      ((∀ ws, planClipWindows "v".toList 1920 1080 5 12 false 5 = some ws →
          ∀ cl ∈ ws, ∃ st et, cl = mkWindowClip "v".toList st et 1920 1080 ∧ 0 ≤ st ∧
            st < et ∧ et ≤ 12 ∧ et - st = 5) ∧
        (∀ ws, planClipWindows "v".toList 1920 1080 5 12 true 5 = some ws →
          ws.length ≤ 1) ∧
        ((12 : ℚ) < 5 → 1 ≤ 5 →
          planClipWindows "v".toList 1920 1080 5 12 false 5 = some [])) :=
  ⟨by norm_num, c4_planner_invariants "v".toList 1920 1080 5 12 false 5 (by norm_num)⟩

/-! ## C6 theorem -/

/-- Claim C6 is contradicted by the code: the single-clip branch does
byte-copy the temp file to the output path, but
`delete_files(processed_clips)` receives the clip objects rather than
their paths, so `os.remove` raises `TypeError`, the bare `except` swallows
it, and the per-clip temp file survives.  The last conjunct shows the
path-based call the other branches use would have deleted it. -/
theorem c6_single_clip_temp_survives :
    combineSingleClip (mkProcessedClip "temp-clip-1.mp4".toList 5 1080 1920)
        "final.mp4".toList ["temp-clip-1.mp4".toList] =
        ["final.mp4".toList, "temp-clip-1.mp4".toList] ∧
      "temp-clip-1.mp4".toList ∈
        combineSingleClip (mkProcessedClip "temp-clip-1.mp4".toList 5 1080 1920)
          "final.mp4".toList ["temp-clip-1.mp4".toList] ∧
      delete_files [DelFileArg.pathArg "temp-clip-1.mp4".toList]
          ("final.mp4".toList :: ["temp-clip-1.mp4".toList]) = ["final.mp4".toList] :=
  ⟨by decide, by decide, by decide⟩

/-! ## C3 support -/

theorem find?_of_unique {α : Type} (p : α → Bool) (l : List α) (a : α) (ha : a ∈ l)
    (hpa : p a = true) (uniq : ∀ b ∈ l, p b = true → b = a) : l.find? p = some a := by
  induction l with
  | nil => simp at ha
  | cons x xs ih =>
    by_cases hx : p x = true
    · have hxa : x = a := uniq x (by simp) hx
      subst hxa
      rw [List.find?_cons_of_pos _ hx]
    · rw [List.find?_cons_of_neg _ hx]
      have ha' : a ∈ xs := by
        rcases List.mem_cons.1 ha with rfl | h
        · exact absurd hpa hx
        · exact h
      exact ih ha' fun b hb hpb => uniq b (by simp [hb]) hpb

theorem successes_fst_mem {α : Type} (l : List (ℕ × Option α)) (i : ℕ)
    (h : i ∈ ((l.filterMap fun p => (p.2).map fun r => (p.1, r)).map Prod.fst)) :
    i ∈ l.map Prod.fst := by
  obtain ⟨⟨j, r⟩, hmem, hj⟩ := List.mem_map.1 h
  obtain ⟨q, hq, hfq⟩ := List.mem_filterMap.1 hmem
  cases hq2 : q.2 with
  | none => rw [hq2] at hfq; simp at hfq
  | some v =>
    rw [hq2] at hfq
    simp at hfq
    refine List.mem_map.2 ⟨q, hq, ?_⟩
    rw [hfq.1]
    simpa using hj

theorem successes_pairwise {α : Type} (l : List (ℕ × Option α))
    (h : (l.map Prod.fst).Pairwise (· < ·)) :
    (((l.filterMap fun p => (p.2).map fun r => (p.1, r)).map Prod.fst).Pairwise (· < ·)) := by
  induction l with
  | nil => simp
  | cons x xs ih =>
    rw [List.map_cons, List.pairwise_cons] at h
    obtain ⟨hx, hxs⟩ := h
    rw [List.filterMap_cons]
    cases hx2 : x.2 with
    | none => exact ih hxs
    | some v =>
      simp only [Option.map_some']
      rw [List.map_cons, List.pairwise_cons]
      exact ⟨fun j hj => hx j (successes_fst_mem xs j hj), ih hxs⟩

theorem successes_map_snd {α : Type} (l : List (ℕ × Option α)) :
    ((l.filterMap fun p => (p.2).map fun r => (p.1, r)).map Prod.snd) =
      l.filterMap fun p => p.2 := by
  induction l with
  | nil => rfl
  | cons x xs ih => cases hx2 : x.2 <;> simp [List.filterMap_cons, hx2, ih]

theorem lookup_sorted_keys {α : Type} (src : List (ℕ × α)) :
    ∀ D : List (ℕ × α), (∀ pr ∈ D, src.find? (fun q => q.1 == pr.1) = some pr) →
      ((D.map Prod.fst).filterMap fun i => (src.find? fun q => q.1 == i).map Prod.snd) =
        D.map Prod.snd := by
  intro D
  induction D with
  | nil => intro _; rfl
  | cons pr rest ih =>
    intro hall
    rw [List.map_cons, List.map_cons, List.filterMap_cons]
    simp only [hall pr (by simp), Option.map_some']
    rw [ih fun q hq => hall q (by simp [hq])]

/-- Claim C3, confirmed: whatever order the futures complete in (any
permutation of the dispatched list), the assembled ProcessedClip list
equals the results in ascending original-index order with failed workers
(`none`) omitted. -/
theorem c3_order_independent_assembly {α : Type} (dispatched completed : List (ℕ × Option α))
    (hperm : completed.Perm dispatched)
    (hkeys : (dispatched.map Prod.fst).Pairwise (· < ·)) :
    assembleProcessedClips completed = dispatched.filterMap fun p => p.2 := by
  have hpermS : (completed.filterMap fun p => (p.2).map fun r => (p.1, r)).Perm
      (dispatched.filterMap fun p => (p.2).map fun r => (p.1, r)) :=
    hperm.filterMap _
  have hD := successes_pairwise dispatched hkeys
  have hDnodup : ((dispatched.filterMap fun p => (p.2).map fun r => (p.1, r)).map
      Prod.fst).Nodup :=
    hD.imp ne_of_lt
  have hkeysPerm : ((completed.filterMap fun p => (p.2).map fun r => (p.1, r)).map
      Prod.fst).Perm
      ((dispatched.filterMap fun p => (p.2).map fun r => (p.1, r)).map Prod.fst) :=
    hpermS.map _
  have hkeysEq : List.insertionSort (· ≤ ·)
      ((completed.filterMap fun p => (p.2).map fun r => (p.1, r)).map Prod.fst) =
      (dispatched.filterMap fun p => (p.2).map fun r => (p.1, r)).map Prod.fst :=
    List.eq_of_perm_of_sorted ((List.perm_insertionSort _ _).trans hkeysPerm)
      (List.sorted_insertionSort _ _) (hD.imp le_of_lt)
  have hfind : ∀ pr ∈ dispatched.filterMap fun p => (p.2).map fun r => (p.1, r),
      (completed.filterMap fun p => (p.2).map fun r => (p.1, r)).find?
        (fun q => q.1 == pr.1) = some pr := by
    intro pr hpr
    apply find?_of_unique
    · exact hpermS.mem_iff.2 hpr
    · simp
    · intro b hb hpb
      have hb' : b ∈ dispatched.filterMap fun p => (p.2).map fun r => (p.1, r) :=
        hpermS.mem_iff.1 hb
      have hfst : b.1 = pr.1 := by simpa using hpb
      exact List.inj_on_of_nodup_map hDnodup hb' hpr hfst
  simp only [assembleProcessedClips]
  rw [hkeysEq, lookup_sorted_keys _ _ hfind, successes_map_snd]

/-- Witness for `c3_order_independent_assembly`: a completion order that
finishes index 2 first, then 0, then the failed index 1, still assembles
to the ascending-index survivors. -/
theorem c3_witness :
    [((2 : ℕ), some "b"), (0, some "a"), (1, (none : Option String))].Perm
        [(0, some "a"), (1, none), (2, some "b")] ∧
      (([((0 : ℕ), some "a"), (1, (none : Option String)), (2, some "b")].map
          Prod.fst).Pairwise (· < ·)) ∧
      assembleProcessedClips [((2 : ℕ), some "b"), (0, some "a"), (1, (none : Option String))] =
        [((0 : ℕ), some "a"), (1, (none : Option String)), (2, some "b")].filterMap
          (fun p => p.2) :=
  ⟨by decide, by decide,
    c3_order_independent_assembly [(0, some "a"), (1, none), (2, some "b")]
      [(2, some "b"), (0, some "a"), (1, none)] (by decide) (by decide)⟩
